import Mathlib

/-!
Shallow embedding of the scoped dependency-resolution engine of
`portento-core` (`src/DependencyManagement.ts`), together with proofs of the
specification's claims about it.

Modelling conventions:
* a JS class / constructor function (`Ctor`, `Function`) is a `ClassRef`:
  its `.name` plus a numeric identity (two distinct classes may share a name);
* a constructed object is an `Instance`; reference identity is modelled by a
  globally fresh `mint` number drawn from `DMState.nextMint` at construction
  time, so two separately constructed objects are never equal;
* `Symbol.for(s)` yields a token interned by the string `s`; string tokens
  (used for the engine's self-registration under `'DependencyManagement'`)
  and symbol tokens live in distinct namespaces, as in tsyringe's registry;
* the tsyringe `DependencyContainer` is a `Container`: a registration list
  (most recent first, matching tsyringe's last-registration-wins) plus a
  singleton-instance cache; `resolve` of an unregistered token throws, which
  is modelled by `Option`/`Except.error`;
* JS `Map`s are association lists with `aset` giving `Map.set` semantics
  (replace the value at an existing key, otherwise append).
-/

namespace Portento

/-- Insertion with JS `Map.set` semantics: replace in place if the key is
present, otherwise append at the end. -/
def aset {α β : Type} [BEq α] (k : α) (v : β) : List (α × β) → List (α × β)
  | [] => [(k, v)]
  | (k', v') :: rest => if k' == k then (k, v) :: rest else (k', v') :: aset k v rest

/-- Identity of a JS class (constructor function): its `.name` together with a
numeric identity distinguishing distinct classes that share a name. -/
structure ClassRef where
  name : String
  id : Nat
deriving DecidableEq, Repr

/-- A constructed object; `mint` is a globally fresh number modelling
reference identity. -/
structure Instance where
  cls : ClassRef
  mint : Nat
deriving DecidableEq, Repr

/-- A value held by the container: either the engine itself (registered with
`useValue: this`) or an object constructed from a class. -/
inductive Value where
  | engine
  | obj (i : Instance)
deriving DecidableEq, Repr

/-- A tsyringe provider as used by this code base: `useClass` with singleton
lifecycle, or `useValue`. -/
inductive Provider where
  | useClass (c : ClassRef)
  | useValue (v : Value)
deriving DecidableEq, Repr

/-- An injection token: a plain string token or a `Symbol.for`-interned
symbol (interned symbols are equal exactly when their strings are equal). -/
inductive Token where
  | strTok (s : String)
  | symTok (s : String)
deriving DecidableEq, Repr

/-- The string token under which the engine registers itself. -/
def dmToken : Token := Token.strTok "DependencyManagement"

/-- The tsyringe container: registrations (most recent first) and the
singleton instance cache. -/
structure Container where
  regs : List (Token × Provider)
  instances : List (Token × Instance)
deriving DecidableEq, Repr

/-- A fresh, empty child container (`tsyringe.createChildContainer()`). -/
def Container.empty : Container := { regs := [], instances := [] }

/-- Membership test on the container's registrations
(`container.isRegistered(token)`). -/
def Container.isRegistered (c : Container) (t : Token) : Bool :=
  (c.regs.lookup t).isSome

/-- Add a registration (`container.register(token, provider, singleton)`).
The newest registration shadows older ones, as in tsyringe. -/
def Container.register (c : Container) (t : Token) (p : Provider) : Container :=
  { c with regs := (t, p) :: c.regs }

/-- Drop all cached instances, keep registrations
(`container.clearInstances()`). -/
def Container.clearInstances (c : Container) : Container :=
  { c with instances := [] }

/-- The container's `resolve(token)` under singleton lifecycle: return the
cached instance if present, otherwise construct (drawing a fresh mint) and
cache; `useValue` registrations return the stored value; an unregistered
token throws, modelled as `none`. -/
def Container.resolveTok (c : Container) (mint : Nat) (t : Token) :
    Option (Value × Container × Nat) :=
  match c.regs.lookup t with
  | none => none
  | some (Provider.useValue v) => some (v, c, mint)
  | some (Provider.useClass cl) =>
    match c.instances.lookup t with
    | some i => some (Value.obj i, c, mint)
    | none =>
      some (Value.obj ⟨cl, mint⟩,
        { c with instances := (t, ⟨cl, mint⟩) :: c.instances }, mint + 1)

/-- State of the `DependencyManagement` singleton: the single global
container, the three scope tables, the membership tracker, the retained
class maps used by `reregisterAll`, the ambient context, and the fresh-mint
counter modelling object identity. -/
structure DMState where
  container : Container
  rootScope : List (String × Token)
  routerScopes : List (String × List (String × Token))
  componentScopes : List (String × List (String × Token))
  componentToRouter : List (String × String)
  rootClasses : List (String × ClassRef)
  routerClasses : List (String × List (String × ClassRef))
  componentClasses : List (String × List (String × ClassRef))
  currentSelector : Option String
  currentRouterSelector : Option String
  nextMint : Nat
deriving DecidableEq, Repr

/-- State produced by the private constructor: everything empty except the
engine's self-registration under the string token `'DependencyManagement'`. -/
def DMState.initial : DMState :=
  { container := { regs := [(dmToken, Provider.useValue Value.engine)], instances := [] }
  , rootScope := []
  , routerScopes := []
  , componentScopes := []
  , componentToRouter := []
  , rootClasses := []
  , routerClasses := []
  , componentClasses := []
  , currentSelector := none
  , currentRouterSelector := none
  , nextMint := 0 }

/-- Token derivation: `Symbol.for` applied to the template
`` `${scope}:${className}` `` (source `getToken`). -/
def getToken (className scope : String) : Token :=
  Token.symTok (scope ++ ":" ++ className)

/-- Source `setContext(selector, routerSelector)`. -/
def DMState.setContext (st : DMState) (selector routerSelector : Option String) : DMState :=
  { st with currentSelector := selector, currentRouterSelector := routerSelector }

/-- Source `clearContext()`. -/
def DMState.clearContext (st : DMState) : DMState :=
  { st with currentSelector := none, currentRouterSelector := none }

/-- Source `setupRootContainer(Entity)`: guarded registration of a class in
the root scope. -/
def DMState.setupRootContainer (st : DMState) (Entity : ClassRef) : DMState :=
  let className := Entity.name
  if (st.rootScope.lookup className).isSome then st
  else
    let scopedToken := getToken className "root"
    let st' := { st with
      rootScope := aset className scopedToken st.rootScope,
      rootClasses := aset className Entity st.rootClasses }
    if st'.container.isRegistered scopedToken then st'
    else { st' with
      container := st'.container.register scopedToken (Provider.useClass Entity) }

/-- The per-provider registration loop shared by `setupComponentContainer`
and `setupRouterContainer`: for each provider not yet present in the scope
table, mint a token, record it together with the class, and register it in
the container if not already registered. -/
def registerProviders (scopeKey : String) (Providers : List ClassRef)
    (scopeMap : List (String × Token)) (classMap : List (String × ClassRef))
    (container : Container) :
    List (String × Token) × List (String × ClassRef) × Container :=
  match Providers with
  | [] => (scopeMap, classMap, container)
  | p :: rest =>
    let className := p.name
    if (scopeMap.lookup className).isSome then
      registerProviders scopeKey rest scopeMap classMap container
    else
      let scopedToken := getToken className scopeKey
      let scopeMap' := aset className scopedToken scopeMap
      let classMap' := aset className p classMap
      let container' :=
        if container.isRegistered scopedToken then container
        else container.register scopedToken (Provider.useClass p)
      registerProviders scopeKey rest scopeMap' classMap' container'

/-- Body of `setupComponentContainer` after the lazy creation of the scope's
maps: the two guarded lookups with their fail-fast branch, then the guarded
provider-registration loop. -/
def DMState.setupComponentCore (st' : DMState) (selector : String)
    (Providers : List ClassRef) : Except String DMState :=
  match st'.componentScopes.lookup selector, st'.componentClasses.lookup selector with
  | some scopeMap, some classMap =>
    let r := registerProviders ("component:" ++ selector) Providers scopeMap classMap st'.container
    .ok { st' with
      componentScopes := aset selector r.1 st'.componentScopes,
      componentClasses := aset selector r.2.1 st'.componentClasses,
      container := r.2.2 }
  | _, _ => .error ("Failed to create component scope for selector: " ++ selector)

/-- Source `setupComponentContainer(selector, Providers)`: lazily create the
scope's two maps, fail fast if either lookup then misses, and run the
guarded provider-registration loop. -/
def DMState.setupComponentContainer (st : DMState) (selector : String)
    (Providers : List ClassRef) : Except String DMState :=
  let st' :=
    if (st.componentScopes.lookup selector).isSome then st
    else { st with
      componentScopes := aset selector [] st.componentScopes,
      componentClasses := aset selector [] st.componentClasses }
  st'.setupComponentCore selector Providers

/-- A member entry of a router's `components` array: either a class reference
or a bare name (the source accepts both and takes the class's `.name`). -/
inductive CompRef where
  | cls (c : ClassRef)
  | nm (s : String)
deriving DecidableEq, Repr

/-- Name extraction used by the membership loop
(`typeof Component === 'string' ? Component : Component.name`). -/
def CompRef.toName : CompRef → String
  | CompRef.cls c => c.name
  | CompRef.nm s => s

/-- Body of `setupRouterContainer` after the lazy creation of the scope's
maps: the two guarded lookups with their fail-fast branch, the membership
loop over the declared components, then the guarded provider-registration
loop. -/
def DMState.setupRouterCore (st' : DMState) (Components : List CompRef)
    (Providers : List ClassRef) (selector : String) : Except String DMState :=
  match st'.routerScopes.lookup selector, st'.routerClasses.lookup selector with
  | some scopeMap, some classMap =>
    let membership := Components.foldl
      (fun acc comp => aset comp.toName selector acc) st'.componentToRouter
    let r := registerProviders ("router:" ++ selector) Providers scopeMap classMap st'.container
    .ok { st' with
      componentToRouter := membership,
      routerScopes := aset selector r.1 st'.routerScopes,
      routerClasses := aset selector r.2.1 st'.routerClasses,
      container := r.2.2 }
  | _, _ => .error ("Failed to create router scope for selector: " ++ selector)

/-- Source `setupRouterContainer(Components, Providers, selector)`: lazily
create the scope's two maps, fail fast if either lookup then misses, record
membership for every listed component, then run the guarded
provider-registration loop. -/
def DMState.setupRouterContainer (st : DMState) (Components : List CompRef)
    (Providers : List ClassRef) (selector : String) : Except String DMState :=
  let st' :=
    if (st.routerScopes.lookup selector).isSome then st
    else { st with
      routerScopes := aset selector [] st.routerScopes,
      routerClasses := aset selector [] st.routerClasses }
  st'.setupRouterCore Components Providers selector

/-- Source `getRouterForComponent(componentName)`. -/
def DMState.getRouterForComponent (st : DMState) (componentName : String) : Option String :=
  st.componentToRouter.lookup componentName

/-- The component-scope branch of `resolve`: with a component selector, look
the name up in that selector's table; a hit requires the token to be
registered in the container. -/
def DMState.componentHit (st : DMState) (className : String) (componentSelector : Option String) :
    Option Token :=
  match componentSelector with
  | none => none
  | some sel =>
    match st.componentScopes.lookup sel with
    | none => none
    | some tbl =>
      match tbl.lookup className with
      | none => none
      | some t => if st.container.isRegistered t then some t else none

/-- The own-router branch of `resolve`. -/
def DMState.routerHit (st : DMState) (className : String) (routerSelector : Option String) :
    Option Token :=
  match routerSelector with
  | none => none
  | some sel =>
    match st.routerScopes.lookup sel with
    | none => none
    | some tbl =>
      match tbl.lookup className with
      | none => none
      | some t => if st.container.isRegistered t then some t else none

/-- The parent-router branch of `resolve`: with an owner name, ask the
membership tracker for its owning router selector; if it exists and differs
from the router selector already tried, look the name up in that router's
table. -/
def DMState.parentHit (st : DMState) (className : String)
    (routerSelector componentClassName : Option String) : Option Token :=
  match componentClassName with
  | none => none
  | some owner =>
    match st.componentToRouter.lookup owner with
    | none => none
    | some parentSel =>
      if routerSelector = some parentSel then none
      else
        match st.routerScopes.lookup parentSel with
        | none => none
        | some tbl =>
          match tbl.lookup className with
          | none => none
          | some t => if st.container.isRegistered t then some t else none

/-- The root-scope fallback branch of `resolve`. -/
def DMState.rootHit (st : DMState) (className : String) : Option Token :=
  match st.rootScope.lookup className with
  | none => none
  | some t => if st.container.isRegistered t then some t else none

/-- The token chosen by `resolve`'s fallback chain (component scope, then own
router, then parent router, then root); each branch's early `return` makes
the first hit win. -/
def DMState.findTok (st : DMState) (className : String)
    (componentSelector routerSelector componentClassName : Option String) : Option Token :=
  match st.componentHit className componentSelector with
  | some t => some t
  | none =>
    match st.routerHit className routerSelector with
    | some t => some t
    | none =>
      match st.parentHit className routerSelector componentClassName with
      | some t => some t
      | none => st.rootHit className

/-- Resolution of a chosen token through the container, threading the
container and the fresh-mint counter back into the state; an unregistered
token surfaces as the container's thrown error. -/
def DMState.materialize (st : DMState) (t : Token) : Except String (Option Value × DMState) :=
  match st.container.resolveTok st.nextMint t with
  | some (v, c, m) => .ok (some v, { st with container := c, nextMint := m })
  | none => .error "Attempted to resolve unregistered dependency token"

/-- Source `resolve(className, componentSelector?, routerSelector?,
componentClassName?)`: the reserved-name branch resolves the engine's own
string token directly; otherwise the fallback chain picks a token and the
container materializes it, and a miss everywhere returns `undefined`
(modelled `none`) without error. -/
def DMState.resolve (st : DMState) (className : String)
    (componentSelector routerSelector componentClassName : Option String) :
    Except String (Option Value × DMState) :=
  if className = "DependencyManagement" then
    st.materialize dmToken
  else
    match st.findTok className componentSelector routerSelector componentClassName with
    | some t => st.materialize t
    | none => .ok (none, st)

/-- Source `get(className)`: resolve with the ambient context and no owner
name. -/
def DMState.get (st : DMState) (className : String) : Except String (Option Value × DMState) :=
  st.resolve className st.currentSelector st.currentRouterSelector none

/-- One step of `reregisterAll`'s root loop: re-register the token of a root
scope-table entry when its class was retained. -/
def replayRootStep (classes : List (String × ClassRef)) (c : Container)
    (e : String × Token) : Container :=
  match classes.lookup e.1 with
  | some p => c.register e.2 (Provider.useClass p)
  | none => c

/-- One step of the inner loop of `reregisterAll` over a single router or
component scope table. -/
def replayTableStep (cm : List (String × ClassRef)) (c : Container)
    (f : String × Token) : Container :=
  match cm.lookup f.1 with
  | some p => c.register f.2 (Provider.useClass p)
  | none => c

/-- One step of `reregisterAll`'s outer loop over all router or component
scopes: replay a whole scope table when its class map was retained. -/
def replayScopesStep (classes : List (String × List (String × ClassRef))) (c : Container)
    (e : String × List (String × Token)) : Container :=
  match classes.lookup e.1 with
  | some cm => e.2.foldl (replayTableStep cm) c
  | none => c

/-- Source `reregisterAll()`: replay every retained (token, class) pair of
every scope table into the current container. -/
def DMState.reregisterAll (st : DMState) : DMState :=
  let c1 := st.rootScope.foldl (replayRootStep st.rootClasses) st.container
  let c2 := st.routerScopes.foldl (replayScopesStep st.routerClasses) c1
  let c3 := st.componentScopes.foldl (replayScopesStep st.componentClasses) c2
  { st with container := c3 }

/-- Source `resetScope(scope, selector)`: discard the container (reset plus a
fresh child container) and replay every retained registration. -/
def DMState.resetScope (st : DMState) (_scope : String) (_selector : Option String) : DMState :=
  ({ st with container := Container.empty }).reregisterAll

/-- Source `resetClass(className)`: identical body to `resetScope`. -/
def DMState.resetClass (st : DMState) (_className : String) : DMState :=
  ({ st with container := Container.empty }).reregisterAll

/-- Source `resetAll()`: clear cached instances only. -/
def DMState.resetAll (st : DMState) : DMState :=
  { st with container := st.container.clearInstances }

/-! ### Concrete fixtures used by witnesses -/

def svcRootCls : ClassRef := ⟨"Svc", 0⟩

def svcRouterCls : ClassRef := ⟨"Svc", 1⟩

def svcCompCls : ClassRef := ⟨"Svc", 2⟩

def configCls : ClassRef := ⟨"Config", 3⟩

def r2Cls : ClassRef := ⟨"R2", 4⟩

/-- Fixture: `Svc` registered at root scope. -/
def fxRoot : DMState := DMState.initial.setupRootContainer svcRootCls

/-- Fixture: additionally, a distinct `Svc` registered in router scope `R`. -/
def fxRouter : DMState :=
  match fxRoot.setupRouterContainer [] [svcRouterCls] "R" with
  | .ok s => s
  | .error _ => fxRoot

/-- Fixture: additionally, a distinct `Svc` registered in component scope `C`. -/
def fxFull : DMState :=
  match fxRouter.setupComponentContainer "C" [svcCompCls] with
  | .ok s => s
  | .error _ => fxRouter

/-- Fixture: `fxRoot` after one root resolution of `Svc`. -/
def fxRootResolved : DMState :=
  match fxRoot.resolve "Svc" none none none with
  | .ok (_, s) => s
  | .error _ => fxRoot

/-- Fixture: outer router `R1` providing `Config` and declaring router class
`R2` among its components. -/
def fxR1 : DMState :=
  match DMState.initial.setupRouterContainer [CompRef.cls r2Cls] [configCls] "R1" with
  | .ok s => s
  | .error _ => DMState.initial

/-- Fixture: additionally, router `R2` set up with no providers of its own. -/
def fxR1R2 : DMState :=
  match fxR1.setupRouterContainer [] [] "R2" with
  | .ok s => s
  | .error _ => fxR1

/-- Fixture: `Svc` registered only in component scope `A`. -/
def fxCompA : DMState :=
  match DMState.initial.setupComponentContainer "A" [svcCompCls] with
  | .ok s => s
  | .error _ => DMState.initial

/-- Cache-freshness invariant: every cached instance was minted strictly
below the current fresh-mint counter. -/
def mintsFresh (st : DMState) : Bool :=
  st.container.instances.all fun e => e.2.mint < st.nextMint

/-! ### Well-formedness predicates

These hold of every state reachable through the engine's operations and are
the program invariants under which the reset claims are stated. -/

/-- Scope tables and class maps are created in lockstep: a selector present
in a scope-table map is present in the corresponding class map. -/
def scopesSynced (st : DMState) : Bool :=
  st.componentScopes.all (fun e => (st.componentClasses.lookup e.1).isSome) &&
  st.routerScopes.all (fun e => (st.routerClasses.lookup e.1).isSome)

/-- Every name in a scope table has a retained class in the matching class
map. -/
def tableClassesPresent (tbl : List (String × Token)) (cm : List (String × ClassRef)) : Bool :=
  tbl.all fun e => (cm.lookup e.1).isSome

/-- Every (selector, name) pair of every scope table has its class retained
for re-registration. -/
def classesRetained (st : DMState) : Bool :=
  tableClassesPresent st.rootScope st.rootClasses &&
  (st.routerScopes.all fun e =>
    match st.routerClasses.lookup e.1 with
    | some cm => tableClassesPresent e.2 cm
    | none => false) &&
  (st.componentScopes.all fun e =>
    match st.componentClasses.lookup e.1 with
    | some cm => tableClassesPresent e.2 cm
    | none => false)

/-- Every token recorded in a scope table is registered in the container. -/
def tokensRegistered (st : DMState) : Bool :=
  st.rootScope.all (fun e => st.container.isRegistered e.2) &&
  (st.routerScopes.all fun e => e.2.all fun f => st.container.isRegistered f.2) &&
  (st.componentScopes.all fun e => e.2.all fun f => st.container.isRegistered f.2)

/-- Discriminator for symbol tokens. -/
def Token.isSym : Token → Bool
  | Token.symTok _ => true
  | Token.strTok _ => false

/-- Every token recorded in a scope table is a `Symbol.for` token (minted by
`getToken`), never the engine's plain string token. -/
def scopeTokensSym (st : DMState) : Bool :=
  st.rootScope.all (fun e => e.2.isSym) &&
  (st.routerScopes.all fun e => e.2.all fun f => f.2.isSym) &&
  (st.componentScopes.all fun e => e.2.all fun f => f.2.isSym)

/-- The reserved token `'DependencyManagement'` is never registered with a
class provider (only the constructor's `useValue: this`, if anything). -/
def dmValueOnly (st : DMState) : Bool :=
  match st.container.regs.lookup dmToken with
  | none => true
  | some (Provider.useValue Value.engine) => true
  | some _ => false

/-- Every registration is a class provider, except the engine's own
`useValue` self-registration. -/
def regsWellTyped (st : DMState) : Bool :=
  st.container.regs.all fun e =>
    match e.2 with
    | Provider.useClass _ => true
    | Provider.useValue Value.engine => decide (e.1 = dmToken)
    | Provider.useValue _ => false

/-- Conjunction of the reachable-state invariants. -/
def wellFormed (st : DMState) : Bool :=
  scopesSynced st && classesRetained st && tokensRegistered st && mintsFresh st &&
  scopeTokensSym st && dmValueOnly st && regsWellTyped st

/-- All tokens minted into any scope table. -/
def scopeTokens (st : DMState) : List Token :=
  st.rootScope.map Prod.snd ++
  (st.routerScopes.flatMap fun e => e.2.map Prod.snd) ++
  (st.componentScopes.flatMap fun e => e.2.map Prod.snd)

/-! ### Registration-filtered lookup versus pure table lookup -/

/-- The component branch with the `isRegistered` filter dropped. -/
def componentHitPure (st : DMState) (className : String) (componentSelector : Option String) :
    Option Token :=
  match componentSelector with
  | none => none
  | some sel =>
    match st.componentScopes.lookup sel with
    | none => none
    | some tbl => tbl.lookup className

/-- The own-router branch with the `isRegistered` filter dropped. -/
def routerHitPure (st : DMState) (className : String) (routerSelector : Option String) :
    Option Token :=
  match routerSelector with
  | none => none
  | some sel =>
    match st.routerScopes.lookup sel with
    | none => none
    | some tbl => tbl.lookup className

/-- The parent-router branch with the `isRegistered` filter dropped. -/
def parentHitPure (st : DMState) (className : String)
    (routerSelector componentClassName : Option String) : Option Token :=
  match componentClassName with
  | none => none
  | some owner =>
    match st.componentToRouter.lookup owner with
    | none => none
    | some parentSel =>
      if routerSelector = some parentSel then none
      else
        match st.routerScopes.lookup parentSel with
        | none => none
        | some tbl => tbl.lookup className

/-- The root branch with the `isRegistered` filter dropped. -/
def rootHitPure (st : DMState) (className : String) : Option Token :=
  st.rootScope.lookup className

/-- The fallback chain with the `isRegistered` filters dropped: a function of
the scope tables and membership records only. -/
def findTokPure (st : DMState) (className : String)
    (componentSelector routerSelector componentClassName : Option String) : Option Token :=
  match componentHitPure st className componentSelector with
  | some t => some t
  | none =>
    match routerHitPure st className routerSelector with
    | some t => some t
    | none =>
      match parentHitPure st className routerSelector componentClassName with
      | some t => some t
      | none => rootHitPure st className

/-! ### Association-list lemmas -/

theorem lookup_cons_self {α β : Type} [BEq α] [LawfulBEq α] (x : α) (v : β)
    (t : List (α × β)) : List.lookup x ((x, v) :: t) = some v := by
  simp [List.lookup]

theorem lookup_cons_ne {α β : Type} [BEq α] [LawfulBEq α] (x k : α) (v : β)
    (t : List (α × β)) (h : x ≠ k) :
    List.lookup x ((k, v) :: t) = List.lookup x t := by
  simp [List.lookup, beq_false_of_ne h]

theorem lookup_aset_self {α β : Type} [BEq α] [LawfulBEq α] (k : α) (v : β)
    (m : List (α × β)) : List.lookup k (aset k v m) = some v := by
  induction m with
  | nil => simp [aset, List.lookup]
  | cons e rest ih =>
    obtain ⟨k', v'⟩ := e
    by_cases h : k' = k
    · subst h; simp [aset, List.lookup]
    · simp [aset, beq_false_of_ne h, List.lookup, beq_false_of_ne (Ne.symm h), ih]

theorem lookup_aset_ne {α β : Type} [BEq α] [LawfulBEq α] (x k : α) (v : β)
    (m : List (α × β)) (hx : x ≠ k) :
    List.lookup x (aset k v m) = List.lookup x m := by
  induction m with
  | nil => simp [aset, List.lookup, beq_false_of_ne hx]
  | cons e rest ih =>
    obtain ⟨k', v'⟩ := e
    by_cases h : k' = k
    · subst h
      simp [aset, List.lookup, beq_false_of_ne hx]
    · simp only [aset, beq_false_of_ne h, if_false, List.lookup]
      cases hxk : x == k' <;> simp [ih]

theorem aset_of_lookup_eq {α β : Type} [BEq α] [LawfulBEq α] (k : α) (v : β)
    (m : List (α × β)) (h : List.lookup k m = some v) : aset k v m = m := by
  induction m with
  | nil => simp [List.lookup] at h
  | cons e rest ih =>
    obtain ⟨k', v'⟩ := e
    by_cases hk : k' = k
    · subst hk
      simp [List.lookup] at h
      simp [aset, h]
    · simp [List.lookup, beq_false_of_ne (Ne.symm hk)] at h
      simp [aset, beq_false_of_ne hk, ih h]

/-! ### Lemmas about the provider-registration loop -/

theorem rp_preserves_isSome (key : String) (ps : List ClassRef)
    (m : List (String × Token)) (cm : List (String × ClassRef)) (c : Container)
    (n : String) (h : (List.lookup n m).isSome) :
    (List.lookup n (registerProviders key ps m cm c).1).isSome := by
  induction ps generalizing m cm c with
  | nil => simp only [registerProviders]; exact h
  | cons p rest ih =>
    simp only [registerProviders]
    by_cases hp : (List.lookup p.name m).isSome
    · simp only [hp, if_true]
      exact ih _ _ _ h
    · simp only [hp, if_false, Bool.false_eq_true]
      apply ih
      by_cases hnp : n = p.name
      · subst hnp; simp [lookup_aset_self]
      · rw [lookup_aset_ne _ _ _ _ hnp]; exact h

theorem rp_adds (key : String) (ps : List ClassRef)
    (m : List (String × Token)) (cm : List (String × ClassRef)) (c : Container) :
    ∀ p ∈ ps, (List.lookup p.name (registerProviders key ps m cm c).1).isSome := by
  induction ps generalizing m cm c with
  | nil => simp
  | cons q rest ih =>
    intro p hp
    rcases List.mem_cons.mp hp with rfl | hmem
    · simp only [registerProviders]
      by_cases hq : (List.lookup p.name m).isSome
      · simp only [hq, if_true]
        exact rp_preserves_isSome _ _ _ _ _ _ hq
      · simp only [hq, if_false, Bool.false_eq_true]
        exact rp_preserves_isSome _ _ _ _ _ _ (by simp [lookup_aset_self])
    · simp only [registerProviders]
      by_cases hq : (List.lookup q.name m).isSome
      · simp only [hq, if_true]
        exact ih _ _ _ p hmem
      · simp only [hq, if_false, Bool.false_eq_true]
        exact ih _ _ _ p hmem

theorem rp_idem (key : String) (ps : List ClassRef)
    (m : List (String × Token)) (cm : List (String × ClassRef)) (c : Container)
    (h : ∀ p ∈ ps, (List.lookup p.name m).isSome) :
    registerProviders key ps m cm c = (m, cm, c) := by
  induction ps with
  | nil => simp [registerProviders]
  | cons p rest ih =>
    have hp := h p (List.mem_cons_self p rest)
    simp only [registerProviders, hp, if_true]
    exact ih fun q hq => h q (List.mem_cons_of_mem _ hq)

/-! ### Lemmas about the membership-recording loop -/

theorem foldMem_preserves (cs : List CompRef) (sel : String)
    (m : List (String × String)) (x : String) (h : List.lookup x m = some sel) :
    List.lookup x (cs.foldl (fun acc comp => aset comp.toName sel acc) m) = some sel := by
  induction cs generalizing m with
  | nil => simpa
  | cons q rest ih =>
    simp only [List.foldl_cons]
    apply ih
    by_cases hc : x = q.toName
    · subst hc; simp [lookup_aset_self]
    · rw [lookup_aset_ne _ _ _ _ hc]; exact h

theorem foldMem_adds (cs : List CompRef) (sel : String) (m : List (String × String)) :
    ∀ c ∈ cs,
      List.lookup c.toName (cs.foldl (fun acc comp => aset comp.toName sel acc) m) = some sel := by
  induction cs generalizing m with
  | nil => simp
  | cons q rest ih =>
    intro c hc
    simp only [List.foldl_cons]
    rcases List.mem_cons.mp hc with rfl | hmem
    · by_cases hq : c.toName ∈ rest.map CompRef.toName
      · rcases List.mem_map.mp hq with ⟨d, hd, hde⟩
        rw [← hde]
        exact ih _ d hd
      · exact foldMem_preserves _ _ _ _ (lookup_aset_self _ _ _)
    · exact ih _ c hmem

theorem foldMem_idem (cs : List CompRef) (sel : String) (m : List (String × String))
    (h : ∀ c ∈ cs, List.lookup c.toName m = some sel) :
    cs.foldl (fun acc comp => aset comp.toName sel acc) m = m := by
  induction cs with
  | nil => rfl
  | cons q rest ih =>
    simp only [List.foldl_cons]
    rw [aset_of_lookup_eq _ _ _ (h q (List.mem_cons_self q rest))]
    exact ih fun c hc => h c (List.mem_cons_of_mem _ hc)

/-! ### Idempotence of the setup operations -/

theorem setupRoot_idem (st : DMState) (E : ClassRef) :
    (st.setupRootContainer E).setupRootContainer E = st.setupRootContainer E := by
  unfold DMState.setupRootContainer
  by_cases h : (List.lookup E.name st.rootScope).isSome
  · simp [h]
  · simp only [h, if_false, Bool.false_eq_true]
    split <;> simp [lookup_aset_self]

theorem setupComponentCore_idem (st' : DMState) (sel : String) (ps : List ClassRef)
    (st1 : DMState) (h : st'.setupComponentCore sel ps = .ok st1) :
    st1.setupComponentContainer sel ps = .ok st1 := by
  cases hs : List.lookup sel st'.componentScopes with
  | none => simp [DMState.setupComponentCore, hs] at h
  | some scopeMap =>
    cases hcl : List.lookup sel st'.componentClasses with
    | none => simp [DMState.setupComponentCore, hs, hcl] at h
    | some classMap =>
      simp only [DMState.setupComponentCore, hs, hcl] at h
      rw [Except.ok.injEq] at h
      subst h
      unfold DMState.setupComponentContainer
      simp only [lookup_aset_self, Option.isSome_some, if_true]
      unfold DMState.setupComponentCore
      simp only [lookup_aset_self]
      rw [rp_idem _ _ _ _ _ (rp_adds _ _ _ _ _)]
      simp [aset_of_lookup_eq _ _ _ (lookup_aset_self _ _ _)]

theorem setupComponent_idem (st : DMState) (sel : String) (ps : List ClassRef)
    (st1 : DMState) (h : st.setupComponentContainer sel ps = .ok st1) :
    st1.setupComponentContainer sel ps = .ok st1 :=
  setupComponentCore_idem _ sel ps st1 h

theorem setupRouterCore_idem (st' : DMState) (cs : List CompRef) (ps : List ClassRef)
    (sel : String) (st1 : DMState) (h : st'.setupRouterCore cs ps sel = .ok st1) :
    st1.setupRouterContainer cs ps sel = .ok st1 := by
  cases hs : List.lookup sel st'.routerScopes with
  | none => simp [DMState.setupRouterCore, hs] at h
  | some scopeMap =>
    cases hcl : List.lookup sel st'.routerClasses with
    | none => simp [DMState.setupRouterCore, hs, hcl] at h
    | some classMap =>
      simp only [DMState.setupRouterCore, hs, hcl] at h
      rw [Except.ok.injEq] at h
      subst h
      unfold DMState.setupRouterContainer
      simp only [lookup_aset_self, Option.isSome_some, if_true]
      unfold DMState.setupRouterCore
      simp only [lookup_aset_self]
      rw [rp_idem _ _ _ _ _ (rp_adds _ _ _ _ _)]
      rw [foldMem_idem cs sel _ (foldMem_adds cs sel _)]
      simp [aset_of_lookup_eq _ _ _ (lookup_aset_self _ _ _)]

theorem setupRouter_idem (st : DMState) (cs : List CompRef) (ps : List ClassRef)
    (sel : String) (st1 : DMState)
    (h : st.setupRouterContainer cs ps sel = .ok st1) :
    st1.setupRouterContainer cs ps sel = .ok st1 :=
  setupRouterCore_idem _ cs ps sel st1 h

/-! ### Generic list lemmas -/

theorem mem_of_lookup_eq_some {α β : Type} [BEq α] [LawfulBEq α] {k : α} {v : β}
    {l : List (α × β)} (h : List.lookup k l = some v) : (k, v) ∈ l := by
  induction l with
  | nil => simp [List.lookup] at h
  | cons e rest ih =>
    obtain ⟨k', v'⟩ := e
    by_cases hk : k = k'
    · subst hk
      simp [List.lookup] at h
      simp [h]
    · simp only [List.lookup, beq_false_of_ne hk] at h
      exact List.mem_cons_of_mem _ (ih h)

theorem foldl_preserve {γ δ : Type} (P : δ → Prop) (step : δ → γ → δ)
    (l : List γ) (init : δ) (hinit : P init)
    (hstep : ∀ d e, e ∈ l → P d → P (step d e)) : P (l.foldl step init) := by
  induction l generalizing init with
  | nil => exact hinit
  | cons x xs ih =>
    exact ih _ (hstep _ _ (List.mem_cons_self x xs) hinit)
      fun d e he hd => hstep d e (List.mem_cons_of_mem _ he) hd

theorem foldl_establish {γ δ : Type} (P : δ → Prop) (step : δ → γ → δ)
    (l : List γ) (e : γ) (he : e ∈ l) (init : δ)
    (hpres : ∀ d x, x ∈ l → P d → P (step d x))
    (hest : ∀ d, P (step d e)) : P (l.foldl step init) := by
  induction l generalizing init with
  | nil => cases he
  | cons x xs ih =>
    rcases List.mem_cons.mp he with rfl | hmem
    · exact foldl_preserve P step xs _ (hest init)
        fun d y hy hd => hpres d y (List.mem_cons_of_mem _ hy) hd
    · exact ih hmem _ fun d y hy hd => hpres d y (List.mem_cons_of_mem _ hy) hd

/-! ### Container lemmas -/

theorem isRegistered_register_mono (c : Container) (t t' : Token) (p : Provider)
    (h : c.isRegistered t = true) : (c.register t' p).isRegistered t = true := by
  unfold Container.isRegistered at h ⊢
  simp only [Container.register]
  by_cases ht : t = t'
  · subst ht; simp [lookup_cons_self]
  · rw [lookup_cons_ne _ _ _ _ ht]; exact h

/-- Stability of the container's singleton resolution: once a token has been
resolved, resolving it again returns the identical value and leaves the
container unchanged; registrations are never changed by resolution. -/
theorem resolveTok_stable (c : Container) (m : Nat) (t : Token) (v : Value)
    (c' : Container) (m' : Nat) (h : c.resolveTok m t = some (v, c', m')) :
    c'.resolveTok m' t = some (v, c', m') ∧ c'.regs = c.regs := by
  unfold Container.resolveTok at h ⊢
  cases hr : c.regs.lookup t with
  | none => rw [hr] at h; cases h
  | some p =>
    rw [hr] at h
    cases p with
    | useValue v0 =>
      simp only [Option.some.injEq, Prod.mk.injEq] at h
      obtain ⟨hv, hc, hm⟩ := h
      subst hv; subst hc; subst hm
      simp [hr]
    | useClass cl =>
      cases hi : c.instances.lookup t with
      | some i =>
        rw [hi] at h
        simp only [Option.some.injEq, Prod.mk.injEq] at h
        obtain ⟨hv, hc, hm⟩ := h
        subst hv; subst hc; subst hm
        simp [hr, hi]
      | none =>
        rw [hi] at h
        simp only [Option.some.injEq, Prod.mk.injEq] at h
        obtain ⟨hv, hc, hm⟩ := h
        subst hv
        rw [← hc, ← hm]
        simp [hr, List.lookup]

theorem materialize_stable (st : DMState) (t : Token) (v : Value) (st' : DMState)
    (h : st.materialize t = .ok (some v, st')) :
    st'.materialize t = .ok (some v, st') ∧
    st'.container.regs = st.container.regs ∧
    st'.rootScope = st.rootScope ∧
    st'.routerScopes = st.routerScopes ∧
    st'.componentScopes = st.componentScopes ∧
    st'.componentToRouter = st.componentToRouter ∧
    st'.rootClasses = st.rootClasses ∧
    st'.routerClasses = st.routerClasses ∧
    st'.componentClasses = st.componentClasses := by
  unfold DMState.materialize at h
  cases hr : st.container.resolveTok st.nextMint t with
  | none => rw [hr] at h; cases h
  | some res =>
    obtain ⟨v0, c0, m0⟩ := res
    rw [hr] at h
    simp only [Except.ok.injEq, Prod.mk.injEq, Option.some.injEq] at h
    obtain ⟨hv, hst⟩ := h
    subst hv
    subst hst
    obtain ⟨hstep, hregs⟩ := resolveTok_stable _ _ _ _ _ _ hr
    refine ⟨?_, hregs, rfl, rfl, rfl, rfl, rfl, rfl, rfl⟩
    simp [DMState.materialize, hstep]

/-- The fallback chain reads only the scope tables, the membership tracker,
and the container's registrations: two states agreeing on those agree on the
chosen token. -/
theorem findTok_congr (st st' : DMState)
    (hregs : st'.container.regs = st.container.regs)
    (hroot : st'.rootScope = st.rootScope)
    (hrs : st'.routerScopes = st.routerScopes)
    (hcs : st'.componentScopes = st.componentScopes)
    (hmem : st'.componentToRouter = st.componentToRouter)
    (n : String) (a b c : Option String) :
    st'.findTok n a b c = st.findTok n a b c := by
  unfold DMState.findTok DMState.componentHit DMState.routerHit DMState.parentHit
    DMState.rootHit Container.isRegistered
  rw [hregs, hroot, hrs, hcs, hmem]

theorem resolve_stable (st : DMState) (n : String) (cs rs cn : Option String)
    (v : Value) (st' : DMState) (h : st.resolve n cs rs cn = .ok (some v, st')) :
    st'.resolve n cs rs cn = .ok (some v, st') := by
  unfold DMState.resolve at h ⊢
  by_cases hn : n = "DependencyManagement"
  · rw [if_pos hn] at h ⊢
    exact (materialize_stable _ _ _ _ h).1
  · rw [if_neg hn] at h ⊢
    cases hf : st.findTok n cs rs cn with
    | none => rw [hf] at h; simp at h
    | some t =>
      rw [hf] at h
      obtain ⟨hmat, hregs, h1, h2, h3, h4, _, _, _⟩ := materialize_stable _ _ _ _ h
      rw [findTok_congr st st' hregs h1 h2 h3 h4]
      rw [hf]
      exact hmat

/-! ### Token-derivation lemmas -/

theorem getToken_scope_inj (n k1 k2 : String) (h : getToken n k1 = getToken n k2) :
    k1 = k2 := by
  simp only [getToken, Token.symTok.injEq] at h
  have h2 := congrArg String.data h
  simp only [String.data_append, List.append_assoc] at h2
  exact String.ext (List.append_cancel_right h2)

theorem scopeKey_component_ne_router (x y : String) :
    ("component:" ++ x) ≠ ("router:" ++ y) := by
  intro h
  have h2 := congrArg String.data h
  simp [String.data_append] at h2

theorem scopeKey_component_ne_root (x : String) : ("component:" ++ x) ≠ "root" := by
  intro h
  have h2 := congrArg String.data h
  simp [String.data_append] at h2

theorem scopeKey_router_ne_root (x : String) : ("router:" ++ x) ≠ "root" := by
  intro h
  have h2 := congrArg String.data h
  simp [String.data_append] at h2

/-! ### Claim theorems -/

/-- C1: for a provider name registered simultaneously in a component scope, a
router scope, and the root scope, `resolve` with both selectors returns the
component-scope instance (the value materialized under the component-scope
token), `resolve` with only the router selector returns the router-scope
instance, and `resolve` with neither selector returns the root-scope
instance: lookup strictly favors component over router over root. -/
theorem resolve_component_over_router_over_root
    (st : DMState) (n c r : String) (hn : n ≠ "DependencyManagement")
    (tblC : List (String × Token)) (tokC : Token)
    (hc1 : st.componentScopes.lookup c = some tblC)
    (hc2 : tblC.lookup n = some tokC)
    (hc3 : st.container.isRegistered tokC = true)
    (tblR : List (String × Token)) (tokR : Token)
    (hr1 : st.routerScopes.lookup r = some tblR)
    (hr2 : tblR.lookup n = some tokR)
    (hr3 : st.container.isRegistered tokR = true)
    (tokRoot : Token)
    (ht1 : st.rootScope.lookup n = some tokRoot)
    (ht2 : st.container.isRegistered tokRoot = true) :
    st.resolve n (some c) (some r) none = st.materialize tokC ∧
    st.resolve n none (some r) none = st.materialize tokR ∧
    st.resolve n none none none = st.materialize tokRoot := by
  refine ⟨?_, ?_, ?_⟩ <;>
  · unfold DMState.resolve DMState.findTok DMState.componentHit DMState.routerHit
      DMState.parentHit DMState.rootHit
    rw [if_neg hn]
    simp [hc1, hc2, hc3, hr1, hr2, hr3, ht1, ht2]

/-- Witness for C1: the three-scope fixture, evaluated concretely. -/
theorem resolve_component_over_router_over_root_witness :
    fxFull.resolve "Svc" (some "C") (some "R") none
      = fxFull.materialize (getToken "Svc" ("component:" ++ "C")) ∧
    fxFull.resolve "Svc" none (some "R") none
      = fxFull.materialize (getToken "Svc" ("router:" ++ "R")) ∧
    fxFull.resolve "Svc" none none none
      = fxFull.materialize (getToken "Svc" "root") :=
  resolve_component_over_router_over_root fxFull "Svc" "C" "R" (by decide)
    [("Svc", getToken "Svc" ("component:" ++ "C"))] (getToken "Svc" ("component:" ++ "C"))
    (by rfl) (by rfl) (by rfl)
    [("Svc", getToken "Svc" ("router:" ++ "R"))] (getToken "Svc" ("router:" ++ "R"))
    (by rfl) (by rfl) (by rfl)
    (getToken "Svc" "root") (by rfl) (by rfl)

/-- C2: once a resolve call has constructed an instance for a token, every
subsequent resolution reaching the same token returns the identical value
and leaves the state unchanged, both at the container level (any resolution
path reaching the token) and at the engine level (a repeated `resolve` call);
in particular two unrelated root resolutions return the same instance. -/
theorem resolve_singleton_identity :
    (∀ (c : Container) (m : Nat) (t : Token) (v : Value) (c' : Container) (m' : Nat),
      c.resolveTok m t = some (v, c', m') → c'.resolveTok m' t = some (v, c', m')) ∧
    (∀ (st : DMState) (n : String) (cs rs cn : Option String) (v : Value) (st' : DMState),
      st.resolve n cs rs cn = .ok (some v, st') → st'.resolve n cs rs cn = .ok (some v, st')) :=
  ⟨fun c m t v c' m' h => (resolveTok_stable c m t v c' m' h).1, resolve_stable⟩

/-- Witness for C2: a second root resolution of `Svc` returns the instance
minted by the first resolution, reference-equal (same mint). -/
theorem resolve_singleton_identity_witness :
    fxRootResolved.resolve "Svc" none none none
      = .ok (some (Value.obj ⟨svcRootCls, 0⟩), fxRootResolved) :=
  resolve_singleton_identity.2 fxRoot "Svc" none none none
    (Value.obj ⟨svcRootCls, 0⟩) fxRootResolved (by rfl)

/-- C4: token derivation is pure and deterministic (equal inputs give equal
tokens) and collision-free across distinct scope keys for a fixed provider
name, so the same name registered in multiple scopes gets a distinct token
per scope. -/
theorem token_derivation_pure_injective :
    (∀ n1 n2 k1 k2 : String, n1 = n2 → k1 = k2 → getToken n1 k1 = getToken n2 k2) ∧
    (∀ n k1 k2 : String, getToken n k1 = getToken n k2 → k1 = k2) ∧
    (∀ n k1 k2 : String, k1 ≠ k2 → getToken n k1 ≠ getToken n k2) :=
  ⟨fun _ _ _ _ hn hk => by rw [hn, hk],
   getToken_scope_inj,
   fun n k1 k2 hk he => hk (getToken_scope_inj n k1 k2 he)⟩

/-- Witness for C4: the same name under two distinct router scope keys gets
distinct tokens. -/
theorem token_derivation_pure_injective_witness :
    getToken "Svc" "router:A" ≠ getToken "Svc" "router:B" :=
  token_derivation_pure_injective.2.2 "Svc" "router:A" "router:B" (by decide)

/-- C5: when the name misses both the component table and the own-router
table, `resolve` consults the membership tracker for the owner's router
selector and, if it exists and differs from the router selector, resolves
from that parent router's table before falling back to root; in the nested
scenario, `R2` (a member of `R1`) resolves `Config` to `R1`'s instance. -/
theorem resolve_parent_router_hop :
    (∀ (st : DMState) (n : String) (cs rs : Option String) (owner p : String)
        (tbl : List (String × Token)) (tok : Token),
      n ≠ "DependencyManagement" →
      st.componentHit n cs = none →
      st.routerHit n rs = none →
      st.componentToRouter.lookup owner = some p →
      rs ≠ some p →
      st.routerScopes.lookup p = some tbl →
      tbl.lookup n = some tok →
      st.container.isRegistered tok = true →
      st.resolve n cs rs (some owner) = st.materialize tok) ∧
    fxR1R2.resolve "Config" none (some "R2") (some "R2")
      = fxR1R2.materialize (getToken "Config" ("router:" ++ "R1")) := by
  constructor
  · intro st n cs rs owner p tbl tok hn hch hrh hm hne htbl hlk hreg
    unfold DMState.resolve DMState.findTok DMState.parentHit
    rw [if_neg hn, hch, hrh]
    simp only [hm, if_neg hne, htbl, hlk, hreg, if_true]
  · rfl

/-- Witness for C5: the general parent-router-hop theorem applied to the
concrete nested-router fixture. -/
theorem resolve_parent_router_hop_witness :
    fxR1R2.resolve "Config" none (some "R2") (some "R2")
      = fxR1R2.materialize (getToken "Config" ("router:" ++ "R1")) ∧ (some "R2" : Option String) ≠ some "R1" :=
  ⟨resolve_parent_router_hop.1 fxR1R2 "Config" none (some "R2") "R2" "R1"
    [("Config", getToken "Config" ("router:" ++ "R1"))] (getToken "Config" ("router:" ++ "R1"))
    (by decide) (by rfl) (by rfl) (by rfl) (by decide) (by rfl) (by rfl) (by rfl),
   by decide⟩

/-- C6: the three setup operations are idempotent: repeating a setup call
with the same scope and providers leaves the state unchanged, so exactly one
token is minted per (scope, name) pair, the provider is registered at most
once, and no extra construction can occur. -/
theorem setup_idempotent :
    (∀ (st : DMState) (E : ClassRef),
      (st.setupRootContainer E).setupRootContainer E = st.setupRootContainer E) ∧
    (∀ (st : DMState) (sel : String) (ps : List ClassRef) (st1 : DMState),
      st.setupComponentContainer sel ps = .ok st1 →
      st1.setupComponentContainer sel ps = .ok st1) ∧
    (∀ (st : DMState) (cs : List CompRef) (ps : List ClassRef) (sel : String) (st1 : DMState),
      st.setupRouterContainer cs ps sel = .ok st1 →
      st1.setupRouterContainer cs ps sel = .ok st1) :=
  ⟨setupRoot_idem, setupComponent_idem, setupRouter_idem⟩

/-- Witness for C6: repeating the component setup of the full fixture is a
no-op. -/
theorem setup_idempotent_witness :
    fxFull.setupComponentContainer "C" [svcCompCls] = .ok fxFull :=
  setup_idempotent.2.1 fxRouter "C" [svcCompCls] fxFull (by rfl)

/-- C7: `resetAll` clears only cached instances: registrations, all three
scope tables, the class maps and the membership records are unchanged, and
the next resolution of any previously registered (useClass) token rebuilds a
fresh instance (distinct from every pre-reset cached instance) with no
re-registration step, after which the singleton is re-established. -/
theorem resetAll_clears_only_instances (st : DMState) :
    (st.resetAll).container.regs = st.container.regs ∧
    (st.resetAll).rootScope = st.rootScope ∧
    (st.resetAll).routerScopes = st.routerScopes ∧
    (st.resetAll).componentScopes = st.componentScopes ∧
    (st.resetAll).componentToRouter = st.componentToRouter ∧
    (st.resetAll).rootClasses = st.rootClasses ∧
    (st.resetAll).routerClasses = st.routerClasses ∧
    (st.resetAll).componentClasses = st.componentClasses ∧
    (∀ (t : Token) (cl : ClassRef),
      st.container.regs.lookup t = some (Provider.useClass cl) →
      ∃ st2, (st.resetAll).materialize t
          = .ok (some (Value.obj ⟨cl, st.nextMint⟩), st2) ∧
        st2.materialize t = .ok (some (Value.obj ⟨cl, st.nextMint⟩), st2) ∧
        (mintsFresh st = true →
          ∀ e ∈ st.container.instances, Instance.mk cl st.nextMint ≠ e.2)) := by
  refine ⟨rfl, rfl, rfl, rfl, rfl, rfl, rfl, rfl, ?_⟩
  intro t cl hreg
  refine ⟨{ st with
      container := { regs := st.container.regs, instances := [(t, ⟨cl, st.nextMint⟩)] },
      nextMint := st.nextMint + 1 }, ?_, ?_, ?_⟩
  · unfold DMState.resetAll Container.clearInstances DMState.materialize Container.resolveTok
    simp [hreg, List.lookup]
  · unfold DMState.materialize Container.resolveTok
    simp [hreg, List.lookup]
  · intro hmf
    intro e he heq
    simp [mintsFresh, List.all_eq_true] at hmf
    have hlt := hmf e.1 e.2 he
    rw [← heq] at hlt
    exact lt_irrefl _ hlt

/-- Witness for C7: after `resetAll` on the resolved root fixture, the root
token rebuilds a fresh instance (mint 1, distinct from the cached mint-0
instance) without re-registration. -/
theorem resetAll_clears_only_instances_witness :
    ∃ st2, (fxRootResolved.resetAll).materialize (getToken "Svc" "root")
        = .ok (some (Value.obj ⟨svcRootCls, 1⟩), st2) ∧
      st2.materialize (getToken "Svc" "root")
        = .ok (some (Value.obj ⟨svcRootCls, 1⟩), st2) ∧
      (mintsFresh fxRootResolved = true →
        ∀ e ∈ fxRootResolved.container.instances, Instance.mk svcRootCls 1 ≠ e.2) :=
  (resetAll_clears_only_instances fxRootResolved).2.2.2.2.2.2.2.2
    (getToken "Svc" "root") svcRootCls (by rfl)

/-- C8: a `resolve` or `get` call whose name has no registration in any
accessible scope returns `undefined` (modelled `none`) without throwing; in
particular a provider registered only in component scope `A` is unresolvable
under component selector `B` with no root registration. -/
theorem resolve_missing_returns_absent :
    (∀ (st : DMState) (n : String) (cs rs cn : Option String),
      n ≠ "DependencyManagement" →
      st.componentHit n cs = none →
      st.routerHit n rs = none →
      st.parentHit n rs cn = none →
      st.rootHit n = none →
      st.resolve n cs rs cn = .ok (none, st)) ∧
    (∀ (st : DMState) (n : String),
      n ≠ "DependencyManagement" →
      st.componentHit n st.currentSelector = none →
      st.routerHit n st.currentRouterSelector = none →
      st.rootHit n = none →
      st.get n = .ok (none, st)) ∧
    fxCompA.resolve "Svc" (some "B") none none = .ok (none, fxCompA) := by
  refine ⟨?_, ?_, ?_⟩
  · intro st n cs rs cn hn hch hrh hph hroot
    unfold DMState.resolve DMState.findTok
    rw [if_neg hn, hch, hrh, hph, hroot]
  · intro st n hn hch hrh hroot
    unfold DMState.get DMState.resolve DMState.findTok
    rw [if_neg hn, hch, hrh]
    have hph : st.parentHit n st.currentRouterSelector none = none := rfl
    rw [hph, hroot]
  · rfl

/-- Witness for C8: the general miss theorem applied to the component-only
fixture under the wrong selector. -/
theorem resolve_missing_returns_absent_witness :
    fxCompA.resolve "Nope" (some "A") none none = .ok (none, fxCompA) :=
  resolve_missing_returns_absent.1 fxCompA "Nope" (some "A") none none
    (by decide) (by rfl) (by rfl) (by rfl) (by rfl)

theorem componentHit_eq_pure (st : DMState) (n : String) (cs : Option String)
    (h : ∀ e ∈ st.componentScopes, ∀ f ∈ e.2, st.container.isRegistered f.2 = true) :
    st.componentHit n cs = componentHitPure st n cs := by
  cases cs with
  | none => rfl
  | some sel =>
    cases hs : st.componentScopes.lookup sel with
    | none => simp [DMState.componentHit, componentHitPure, hs]
    | some tbl =>
      cases hn : tbl.lookup n with
      | none => simp [DMState.componentHit, componentHitPure, hs, hn]
      | some t =>
        simp [DMState.componentHit, componentHitPure, hs, hn,
          h (sel, tbl) (mem_of_lookup_eq_some hs) (n, t) (mem_of_lookup_eq_some hn)]

theorem routerHit_eq_pure (st : DMState) (n : String) (rs : Option String)
    (h : ∀ e ∈ st.routerScopes, ∀ f ∈ e.2, st.container.isRegistered f.2 = true) :
    st.routerHit n rs = routerHitPure st n rs := by
  cases rs with
  | none => rfl
  | some sel =>
    cases hs : st.routerScopes.lookup sel with
    | none => simp [DMState.routerHit, routerHitPure, hs]
    | some tbl =>
      cases hn : tbl.lookup n with
      | none => simp [DMState.routerHit, routerHitPure, hs, hn]
      | some t =>
        simp [DMState.routerHit, routerHitPure, hs, hn,
          h (sel, tbl) (mem_of_lookup_eq_some hs) (n, t) (mem_of_lookup_eq_some hn)]

theorem parentHit_eq_pure (st : DMState) (n : String) (rs cn : Option String)
    (h : ∀ e ∈ st.routerScopes, ∀ f ∈ e.2, st.container.isRegistered f.2 = true) :
    st.parentHit n rs cn = parentHitPure st n rs cn := by
  cases cn with
  | none => rfl
  | some owner =>
    cases hm : st.componentToRouter.lookup owner with
    | none => simp [DMState.parentHit, parentHitPure, hm]
    | some p =>
      by_cases hif : rs = some p
      · simp [DMState.parentHit, parentHitPure, hm, hif]
      · cases hs : st.routerScopes.lookup p with
        | none => simp [DMState.parentHit, parentHitPure, hm, hif, hs]
        | some tbl =>
          cases hn : tbl.lookup n with
          | none => simp [DMState.parentHit, parentHitPure, hm, hif, hs, hn]
          | some t =>
            simp [DMState.parentHit, parentHitPure, hm, hif, hs, hn,
              h (p, tbl) (mem_of_lookup_eq_some hs) (n, t) (mem_of_lookup_eq_some hn)]

theorem rootHit_eq_pure (st : DMState) (n : String)
    (h : ∀ e ∈ st.rootScope, st.container.isRegistered e.2 = true) :
    st.rootHit n = rootHitPure st n := by
  cases hn : st.rootScope.lookup n with
  | none => simp [DMState.rootHit, rootHitPure, hn]
  | some t =>
    simp [DMState.rootHit, rootHitPure, hn, h (n, t) (mem_of_lookup_eq_some hn)]

/-- Under the invariant that every scope-table token is registered, the
registration-filtered fallback chain agrees with the pure table lookup. -/
theorem findTok_eq_pure (st : DMState) (h : tokensRegistered st = true)
    (n : String) (cs rs cn : Option String) :
    st.findTok n cs rs cn = findTokPure st n cs rs cn := by
  simp only [tokensRegistered, Bool.and_eq_true, List.all_eq_true] at h
  obtain ⟨⟨h1, h2⟩, h3⟩ := h
  unfold DMState.findTok findTokPure
  rw [componentHit_eq_pure st n cs fun e he f hf => h3 e he f hf,
    routerHit_eq_pure st n rs fun e he f hf => h2 e he f hf,
    parentHit_eq_pure st n rs cn fun e he f hf => h2 e he f hf,
    rootHit_eq_pure st n fun e he => h1 e he]

theorem findTokPure_congr (st st' : DMState)
    (hroot : st'.rootScope = st.rootScope)
    (hrs : st'.routerScopes = st.routerScopes)
    (hcs : st'.componentScopes = st.componentScopes)
    (hmem : st'.componentToRouter = st.componentToRouter)
    (n : String) (a b c : Option String) :
    findTokPure st' n a b c = findTokPure st n a b c := by
  unfold findTokPure componentHitPure routerHitPure parentHitPure rootHitPure
  rw [hroot, hrs, hcs, hmem]

theorem componentHitPure_mem (st : DMState) (n : String) (cs : Option String) (t : Token)
    (h : componentHitPure st n cs = some t) : t ∈ scopeTokens st := by
  cases cs with
  | none => cases h
  | some sel =>
    cases hs : st.componentScopes.lookup sel with
    | none => simp [componentHitPure, hs] at h
    | some tbl =>
      simp only [componentHitPure, hs] at h
      unfold scopeTokens
      refine List.mem_append.mpr (Or.inr ?_)
      exact List.mem_flatMap.mpr ⟨(sel, tbl), mem_of_lookup_eq_some hs,
        List.mem_map.mpr ⟨(n, t), mem_of_lookup_eq_some h, rfl⟩⟩

theorem routerTable_mem (st : DMState) (sel : String) (tbl : List (String × Token))
    (n : String) (t : Token) (hs : st.routerScopes.lookup sel = some tbl)
    (h : tbl.lookup n = some t) : t ∈ scopeTokens st := by
  unfold scopeTokens
  refine List.mem_append.mpr (Or.inl (List.mem_append.mpr (Or.inr ?_)))
  exact List.mem_flatMap.mpr ⟨(sel, tbl), mem_of_lookup_eq_some hs,
    List.mem_map.mpr ⟨(n, t), mem_of_lookup_eq_some h, rfl⟩⟩

theorem routerHitPure_mem (st : DMState) (n : String) (rs : Option String) (t : Token)
    (h : routerHitPure st n rs = some t) : t ∈ scopeTokens st := by
  cases rs with
  | none => cases h
  | some sel =>
    cases hs : st.routerScopes.lookup sel with
    | none => simp [routerHitPure, hs] at h
    | some tbl =>
      simp only [routerHitPure, hs] at h
      exact routerTable_mem st sel tbl n t hs h

theorem parentHitPure_mem (st : DMState) (n : String) (rs cn : Option String) (t : Token)
    (h : parentHitPure st n rs cn = some t) : t ∈ scopeTokens st := by
  cases cn with
  | none => cases h
  | some owner =>
    cases hm : st.componentToRouter.lookup owner with
    | none => simp [parentHitPure, hm] at h
    | some p =>
      by_cases hif : rs = some p
      · simp [parentHitPure, hm, hif] at h
      · cases hs : st.routerScopes.lookup p with
        | none => simp [parentHitPure, hm, hif, hs] at h
        | some tbl =>
          simp only [parentHitPure, hm, if_neg hif, hs] at h
          exact routerTable_mem st p tbl n t hs h

theorem rootHitPure_mem (st : DMState) (n : String) (t : Token)
    (h : rootHitPure st n = some t) : t ∈ scopeTokens st := by
  unfold rootHitPure at h
  unfold scopeTokens
  refine List.mem_append.mpr (Or.inl (List.mem_append.mpr (Or.inl ?_)))
  exact List.mem_map.mpr ⟨(n, t), mem_of_lookup_eq_some h, rfl⟩

/-- A token produced by the pure fallback chain lives in some scope table. -/
theorem findTokPure_mem (st : DMState) (n : String) (cs rs cn : Option String) (t : Token)
    (h : findTokPure st n cs rs cn = some t) : t ∈ scopeTokens st := by
  unfold findTokPure at h
  cases h1 : componentHitPure st n cs with
  | some t0 =>
    rw [h1] at h
    cases h
    exact componentHitPure_mem st n cs t h1
  | none =>
    rw [h1] at h
    cases h2 : routerHitPure st n rs with
    | some t0 =>
      rw [h2] at h
      cases h
      exact routerHitPure_mem st n rs t h2
    | none =>
      rw [h2] at h
      cases h3 : parentHitPure st n rs cn with
      | some t0 =>
        rw [h3] at h
        cases h
        exact parentHitPure_mem st n rs cn t h3
      | none =>
        rw [h3] at h
        exact rootHitPure_mem st n t h

/-! ### Lemmas about `reregisterAll` -/

theorem replayRootStep_P (P : Container → Prop)
    (hreg : ∀ (c : Container) (t : Token) (p : ClassRef), P c → P (c.register t (Provider.useClass p)))
    (classes : List (String × ClassRef)) (c : Container) (e : String × Token)
    (h : P c) : P (replayRootStep classes c e) := by
  unfold replayRootStep
  cases hcl : classes.lookup e.1 with
  | none => exact h
  | some p => exact hreg c e.2 p h

theorem replayTableStep_P (P : Container → Prop)
    (hreg : ∀ (c : Container) (t : Token) (p : ClassRef), P c → P (c.register t (Provider.useClass p)))
    (cm : List (String × ClassRef)) (c : Container) (f : String × Token)
    (h : P c) : P (replayTableStep cm c f) := by
  unfold replayTableStep
  cases hcl : cm.lookup f.1 with
  | none => exact h
  | some p => exact hreg c f.2 p h

theorem replayScopesStep_P (P : Container → Prop)
    (hreg : ∀ (c : Container) (t : Token) (p : ClassRef), P c → P (c.register t (Provider.useClass p)))
    (classes : List (String × List (String × ClassRef))) (c : Container)
    (e : String × List (String × Token))
    (h : P c) : P (replayScopesStep classes c e) := by
  unfold replayScopesStep
  cases hcl : classes.lookup e.1 with
  | none => exact h
  | some cm =>
    exact foldl_preserve P _ e.2 c h fun d f _ hd => replayTableStep_P P hreg cm d f hd

/-- Any property preserved by `useClass` registration and true of the
current container survives `reregisterAll`. -/
theorem reregisterAll_P (st : DMState) (P : Container → Prop)
    (hP : P st.container)
    (hreg : ∀ (c : Container) (t : Token) (p : ClassRef), P c → P (c.register t (Provider.useClass p))) :
    P (st.reregisterAll).container := by
  unfold DMState.reregisterAll
  dsimp only
  apply foldl_preserve P _ st.componentScopes
  · apply foldl_preserve P _ st.routerScopes
    · exact foldl_preserve P _ st.rootScope st.container hP
        fun d e _ hd => replayRootStep_P P hreg st.rootClasses d e hd
    · exact fun d e _ hd => replayScopesStep_P P hreg st.routerClasses d e hd
  · exact fun d e _ hd => replayScopesStep_P P hreg st.componentClasses d e hd

/-- Replay never touches the instance cache. -/
theorem reregisterAll_instances (st : DMState) :
    (st.reregisterAll).container.instances = st.container.instances :=
  reregisterAll_P st (fun c => c.instances = st.container.instances) rfl
    fun c t p h => by simpa [Container.register] using h

/-- If every current registration is a class provider, the same holds after
replay (in particular when replay starts from an empty container). -/
theorem reregisterAll_useClass_only (st : DMState)
    (hbase : ∀ t p, st.container.regs.lookup t = some p → ∃ cl, p = Provider.useClass cl) :
    ∀ t p, (st.reregisterAll).container.regs.lookup t = some p →
      ∃ cl, p = Provider.useClass cl :=
  reregisterAll_P st
    (fun c => ∀ t p, c.regs.lookup t = some p → ∃ cl, p = Provider.useClass cl)
    hbase
    fun c t0 p0 h => by
      intro t p hl
      simp only [Container.register] at hl
      by_cases ht : t = t0
      · subst ht
        rw [lookup_cons_self] at hl
        cases hl
        exact ⟨p0, rfl⟩
      · rw [lookup_cons_ne _ _ _ _ ht] at hl
        exact h t p hl

/-- Every token of every scope table is a symbol token, stated pointwise. -/
theorem scopeTokens_symAll (st : DMState) (hsym : scopeTokensSym st = true) :
    ∀ t ∈ scopeTokens st, t.isSym = true := by
  simp only [scopeTokensSym, Bool.and_eq_true, List.all_eq_true] at hsym
  obtain ⟨⟨h1, h2⟩, h3⟩ := hsym
  intro t ht
  unfold scopeTokens at ht
  rcases List.mem_append.mp ht with h | h
  · rcases List.mem_append.mp h with h' | h'
    · obtain ⟨e, he, rfl⟩ := List.mem_map.mp h'
      exact h1 e he
    · obtain ⟨e, he, hf⟩ := List.mem_flatMap.mp h'
      obtain ⟨f, hf2, rfl⟩ := List.mem_map.mp hf
      exact h2 e he f hf2
  · obtain ⟨e, he, hf⟩ := List.mem_flatMap.mp h
    obtain ⟨f, hf2, rfl⟩ := List.mem_map.mp hf
    exact h3 e he f hf2

/-! ### Lemmas about `reregisterAll` with membership information -/

theorem replayRootStep_P_mem (st : DMState) (P : Container → Prop)
    (hreg : ∀ (c : Container) (t : Token) (p : ClassRef),
      t ∈ scopeTokens st → P c → P (c.register t (Provider.useClass p)))
    (c : Container) (e : String × Token) (he : e ∈ st.rootScope)
    (h : P c) : P (replayRootStep st.rootClasses c e) := by
  unfold replayRootStep
  cases hcl : st.rootClasses.lookup e.1 with
  | none => exact h
  | some p =>
    refine hreg c e.2 p ?_ h
    unfold scopeTokens
    exact List.mem_append.mpr (Or.inl (List.mem_append.mpr
      (Or.inl (List.mem_map.mpr ⟨e, he, rfl⟩))))

theorem replayScopesStep_P_router (st : DMState) (P : Container → Prop)
    (hreg : ∀ (c : Container) (t : Token) (p : ClassRef),
      t ∈ scopeTokens st → P c → P (c.register t (Provider.useClass p)))
    (c : Container) (e : String × List (String × Token)) (he : e ∈ st.routerScopes)
    (h : P c) : P (replayScopesStep st.routerClasses c e) := by
  unfold replayScopesStep
  cases hcl : st.routerClasses.lookup e.1 with
  | none => exact h
  | some cm =>
    refine foldl_preserve P _ e.2 c h fun d f hf hd => ?_
    unfold replayTableStep
    cases hp : cm.lookup f.1 with
    | none => exact hd
    | some p =>
      refine hreg d f.2 p ?_ hd
      unfold scopeTokens
      refine List.mem_append.mpr (Or.inl (List.mem_append.mpr (Or.inr ?_)))
      exact List.mem_flatMap.mpr ⟨e, he, List.mem_map.mpr ⟨f, hf, rfl⟩⟩

theorem replayScopesStep_P_component (st : DMState) (P : Container → Prop)
    (hreg : ∀ (c : Container) (t : Token) (p : ClassRef),
      t ∈ scopeTokens st → P c → P (c.register t (Provider.useClass p)))
    (c : Container) (e : String × List (String × Token)) (he : e ∈ st.componentScopes)
    (h : P c) : P (replayScopesStep st.componentClasses c e) := by
  unfold replayScopesStep
  cases hcl : st.componentClasses.lookup e.1 with
  | none => exact h
  | some cm =>
    refine foldl_preserve P _ e.2 c h fun d f hf hd => ?_
    unfold replayTableStep
    cases hp : cm.lookup f.1 with
    | none => exact hd
    | some p =>
      refine hreg d f.2 p ?_ hd
      unfold scopeTokens
      refine List.mem_append.mpr (Or.inr ?_)
      exact List.mem_flatMap.mpr ⟨e, he, List.mem_map.mpr ⟨f, hf, rfl⟩⟩

/-- Any property preserved by registration of scope-table tokens and true of
the current container survives `reregisterAll`. -/
theorem reregisterAll_P_mem (st : DMState) (P : Container → Prop)
    (hP : P st.container)
    (hreg : ∀ (c : Container) (t : Token) (p : ClassRef),
      t ∈ scopeTokens st → P c → P (c.register t (Provider.useClass p))) :
    P (st.reregisterAll).container := by
  unfold DMState.reregisterAll
  dsimp only
  apply foldl_preserve P _ st.componentScopes
  · apply foldl_preserve P _ st.routerScopes
    · exact foldl_preserve P _ st.rootScope st.container hP
        fun d e he hd => replayRootStep_P_mem st P hreg d e he hd
    · exact fun d e he hd => replayScopesStep_P_router st P hreg d e he hd
  · exact fun d e he hd => replayScopesStep_P_component st P hreg d e he hd

/-- When no scope table records the engine's string token, replay cannot
register it. -/
theorem reregisterAll_strTok_none (st : DMState) (hsym : scopeTokensSym st = true)
    (s : String) (hbase : st.container.regs.lookup (Token.strTok s) = none) :
    (st.reregisterAll).container.regs.lookup (Token.strTok s) = none :=
  reregisterAll_P_mem st (fun c => c.regs.lookup (Token.strTok s) = none) hbase
    fun c t p hmem h => by
      simp only [Container.register]
      have hsymTok : t.isSym = true := scopeTokens_symAll st hsym t hmem
      cases t with
      | strTok u => simp [Token.isSym] at hsymTok
      | symTok u =>
        rw [lookup_cons_ne _ _ _ _ (by simp)]
        exact h

/-- After replay, every scope-table token whose class was retained is
registered again. -/
theorem reregisterAll_isRegistered (st : DMState) (hcr : classesRetained st = true) :
    ∀ t ∈ scopeTokens st, (st.reregisterAll).container.isRegistered t = true := by
  simp only [classesRetained, Bool.and_eq_true, List.all_eq_true] at hcr
  obtain ⟨⟨hroot, hrouter⟩, hcomp⟩ := hcr
  simp only [tableClassesPresent, List.all_eq_true] at hroot
  have hmono : ∀ (tk : Token) (c : Container) (t : Token) (p : ClassRef),
      c.isRegistered tk = true → (c.register t (Provider.useClass p)).isRegistered tk = true :=
    fun tk c t p h => isRegistered_register_mono c tk t (Provider.useClass p) h
  intro t ht
  unfold scopeTokens at ht
  unfold DMState.reregisterAll
  dsimp only
  rcases List.mem_append.mp ht with h | h
  · rcases List.mem_append.mp h with hR | hRt
    · obtain ⟨e, he, rfl⟩ := List.mem_map.mp hR
      apply foldl_preserve (fun (c : Container) => c.isRegistered e.2 = true) _ st.componentScopes
      · apply foldl_preserve (fun (c : Container) => c.isRegistered e.2 = true) _ st.routerScopes
        · apply foldl_establish (fun (c : Container) => c.isRegistered e.2 = true) _ st.rootScope e he
          · exact fun d x _ hd => replayRootStep_P _ (hmono e.2) _ d x hd
          · intro d
            unfold replayRootStep
            obtain ⟨p, hp⟩ := Option.isSome_iff_exists.mp (hroot e he)
            rw [hp]
            unfold Container.isRegistered Container.register
            simp [lookup_cons_self]
        · exact fun d x _ hd => replayScopesStep_P _ (hmono e.2) _ d x hd
      · exact fun d x _ hd => replayScopesStep_P _ (hmono e.2) _ d x hd
    · obtain ⟨e, he, hf⟩ := List.mem_flatMap.mp hRt
      obtain ⟨f, hfmem, rfl⟩ := List.mem_map.mp hf
      apply foldl_preserve (fun (c : Container) => c.isRegistered f.2 = true) _ st.componentScopes
      · apply foldl_establish (fun (c : Container) => c.isRegistered f.2 = true) _ st.routerScopes e he
        · exact fun d x _ hd => replayScopesStep_P _ (hmono f.2) _ d x hd
        · intro d
          unfold replayScopesStep
          have hre := hrouter e he
          cases hcl : st.routerClasses.lookup e.1 with
          | none => rw [hcl] at hre; cases hre
          | some cm =>
            rw [hcl] at hre
            simp only [tableClassesPresent, List.all_eq_true] at hre
            show (e.2.foldl (replayTableStep cm) d).isRegistered f.2 = true
            apply foldl_establish (fun (c : Container) => c.isRegistered f.2 = true) _ e.2 f hfmem
            · exact fun d' x _ hd' => replayTableStep_P _ (hmono f.2) _ d' x hd'
            · intro d'
              unfold replayTableStep
              obtain ⟨p, hp⟩ := Option.isSome_iff_exists.mp (hre f hfmem)
              rw [hp]
              unfold Container.isRegistered Container.register
              simp [lookup_cons_self]
      · exact fun d x _ hd => replayScopesStep_P _ (hmono f.2) _ d x hd
  · obtain ⟨e, he, hf⟩ := List.mem_flatMap.mp h
    obtain ⟨f, hfmem, rfl⟩ := List.mem_map.mp hf
    apply foldl_establish (fun (c : Container) => c.isRegistered f.2 = true) _ st.componentScopes e he
    · exact fun d x _ hd => replayScopesStep_P _ (hmono f.2) _ d x hd
    · intro d
      unfold replayScopesStep
      have hce := hcomp e he
      cases hcl : st.componentClasses.lookup e.1 with
      | none => rw [hcl] at hce; cases hce
      | some cm =>
        rw [hcl] at hce
        simp only [tableClassesPresent, List.all_eq_true] at hce
        show (e.2.foldl (replayTableStep cm) d).isRegistered f.2 = true
        apply foldl_establish (fun (c : Container) => c.isRegistered f.2 = true) _ e.2 f hfmem
        · exact fun d' x _ hd' => replayTableStep_P _ (hmono f.2) _ d' x hd'
        · intro d'
          unfold replayTableStep
          obtain ⟨p, hp⟩ := Option.isSome_iff_exists.mp (hce f hfmem)
          rw [hp]
          unfold Container.isRegistered Container.register
          simp [lookup_cons_self]

/-! ### Frame lemmas for resolution -/

theorem resolveTok_regs_mint (c : Container) (m : Nat) (t : Token) (v : Value)
    (c' : Container) (m' : Nat) (h : c.resolveTok m t = some (v, c', m')) :
    c'.regs = c.regs ∧ m ≤ m' := by
  unfold Container.resolveTok at h
  cases hr : c.regs.lookup t with
  | none => rw [hr] at h; cases h
  | some p =>
    rw [hr] at h
    cases p with
    | useValue v0 =>
      simp only [Option.some.injEq, Prod.mk.injEq] at h
      obtain ⟨_, hc, hm⟩ := h
      subst hc; subst hm
      exact ⟨rfl, le_refl _⟩
    | useClass cl =>
      cases hi : c.instances.lookup t with
      | some i =>
        rw [hi] at h
        simp only [Option.some.injEq, Prod.mk.injEq] at h
        obtain ⟨_, hc, hm⟩ := h
        subst hc; subst hm
        exact ⟨rfl, le_refl _⟩
      | none =>
        rw [hi] at h
        simp only [Option.some.injEq, Prod.mk.injEq] at h
        obtain ⟨_, hc, hm⟩ := h
        subst hc; subst hm
        exact ⟨rfl, Nat.le_succ _⟩

theorem materialize_frame (st : DMState) (t : Token) (ov : Option Value) (st1 : DMState)
    (h : st.materialize t = .ok (ov, st1)) :
    st1.container.regs = st.container.regs ∧ st1.rootScope = st.rootScope ∧
    st1.routerScopes = st.routerScopes ∧ st1.componentScopes = st.componentScopes ∧
    st1.componentToRouter = st.componentToRouter ∧ st1.rootClasses = st.rootClasses ∧
    st1.routerClasses = st.routerClasses ∧ st1.componentClasses = st.componentClasses ∧
    st.nextMint ≤ st1.nextMint := by
  unfold DMState.materialize at h
  cases hr : st.container.resolveTok st.nextMint t with
  | none => rw [hr] at h; cases h
  | some res =>
    obtain ⟨v0, c0, m0⟩ := res
    rw [hr] at h
    simp only [Except.ok.injEq, Prod.mk.injEq] at h
    obtain ⟨hov, hst⟩ := h
    subst hst
    obtain ⟨hregs, hm⟩ := resolveTok_regs_mint _ _ _ _ _ _ hr
    exact ⟨hregs, rfl, rfl, rfl, rfl, rfl, rfl, rfl, hm⟩

theorem resolve_frame (st : DMState) (n : String) (cs rs cn : Option String)
    (ov : Option Value) (st1 : DMState)
    (h : st.resolve n cs rs cn = .ok (ov, st1)) :
    st1.container.regs = st.container.regs ∧ st1.rootScope = st.rootScope ∧
    st1.routerScopes = st.routerScopes ∧ st1.componentScopes = st.componentScopes ∧
    st1.componentToRouter = st.componentToRouter ∧ st1.rootClasses = st.rootClasses ∧
    st1.routerClasses = st.routerClasses ∧ st1.componentClasses = st.componentClasses ∧
    st.nextMint ≤ st1.nextMint := by
  unfold DMState.resolve at h
  by_cases hn : n = "DependencyManagement"
  · rw [if_pos hn] at h
    exact materialize_frame _ _ _ _ h
  · rw [if_neg hn] at h
    cases hf : st.findTok n cs rs cn with
    | none =>
      rw [hf] at h
      simp only [Except.ok.injEq, Prod.mk.injEq] at h
      obtain ⟨_, hst⟩ := h
      subst hst
      exact ⟨rfl, rfl, rfl, rfl, rfl, rfl, rfl, rfl, le_refl _⟩
    | some t =>
      rw [hf] at h
      exact materialize_frame _ _ _ _ h

/-- A successful resolution producing an object went through the fallback
chain (not the reserved-name branch) and the object ends up cached under the
chosen token. -/
theorem resolve_obj_spec (st : DMState) (n : String) (cs rs cn : Option String)
    (i : Instance) (st1 : DMState)
    (hdm : dmValueOnly st = true) (hwt : regsWellTyped st = true)
    (h : st.resolve n cs rs cn = .ok (some (Value.obj i), st1)) :
    n ≠ "DependencyManagement" ∧
    ∃ t, st.findTok n cs rs cn = some t ∧ (t, i) ∈ st1.container.instances := by
  unfold DMState.resolve at h
  by_cases hn : n = "DependencyManagement"
  · rw [if_pos hn] at h
    exfalso
    unfold DMState.materialize Container.resolveTok at h
    unfold dmValueOnly at hdm
    cases hr : st.container.regs.lookup dmToken with
    | none => rw [hr] at h; cases h
    | some p =>
      rw [hr] at h
      rw [hr] at hdm
      cases p with
      | useClass cl => simp at hdm
      | useValue v =>
        cases v with
        | engine => simp at h
        | obj j => simp at hdm
  · rw [if_neg hn] at h
    refine ⟨hn, ?_⟩
    cases hf : st.findTok n cs rs cn with
    | none => rw [hf] at h; simp at h
    | some t =>
      rw [hf] at h
      refine ⟨t, rfl, ?_⟩
      replace h : st.materialize t = .ok (some (Value.obj i), st1) := h
      unfold DMState.materialize Container.resolveTok at h
      cases hr : st.container.regs.lookup t with
      | none => rw [hr] at h; cases h
      | some p =>
        rw [hr] at h
        cases p with
        | useValue v =>
          exfalso
          simp only [regsWellTyped, List.all_eq_true] at hwt
          have hv := hwt (t, Provider.useValue v) (mem_of_lookup_eq_some hr)
          cases v with
          | engine => simp at h
          | obj j => simp at hv
        | useClass cl =>
          cases hi : st.container.instances.lookup t with
          | some j =>
            rw [hi] at h
            simp only [Except.ok.injEq, Prod.mk.injEq, Option.some.injEq,
              Value.obj.injEq] at h
            obtain ⟨hij, hst⟩ := h
            subst hij
            subst hst
            exact mem_of_lookup_eq_some hi
          | none =>
            rw [hi] at h
            simp only [Except.ok.injEq, Prod.mk.injEq, Option.some.injEq,
              Value.obj.injEq] at h
            obtain ⟨hij, hst⟩ := h
            subst hst
            rw [← hij]
            exact List.mem_cons_self _ _

/-- Pointwise reading of the cache-freshness invariant. -/
theorem mintsFresh_lookup (st : DMState) (hm : mintsFresh st = true) (t : Token)
    (i : Instance) (hmem : (t, i) ∈ st.container.instances) : i.mint < st.nextMint := by
  simp only [mintsFresh, List.all_eq_true] at hm
  exact of_decide_eq_true (hm (t, i) hmem)

/-- C3: after a full-flush reset (`resetScope` or `resetClass`) in a
reachable (well-formed) state, every previously minted scope-table token is
registered again, and re-running a resolve call that had produced an
instance yields a new instance that is not reference-equal to the pre-reset
one. -/
theorem reset_reregisters_and_mints_fresh
    (st : DMState) (n : String) (cs rs cn : Option String)
    (i : Instance) (st1 : DMState)
    (hwf : wellFormed st1 = true)
    (hres : st.resolve n cs rs cn = .ok (some (Value.obj i), st1))
    (sc : String) (sel : Option String) (cname : String) :
    (∀ t ∈ scopeTokens st1, (st1.resetScope sc sel).container.isRegistered t = true) ∧
    (∀ t ∈ scopeTokens st1, (st1.resetClass cname).container.isRegistered t = true) ∧
    (∃ i2 st3, (st1.resetScope sc sel).resolve n cs rs cn
        = .ok (some (Value.obj i2), st3) ∧ i2 ≠ i) ∧
    (∃ i2 st3, (st1.resetClass cname).resolve n cs rs cn
        = .ok (some (Value.obj i2), st3) ∧ i2 ≠ i) := by
  simp only [wellFormed, Bool.and_eq_true] at hwf
  obtain ⟨⟨⟨⟨⟨⟨hsync, hcr⟩, hreg⟩, hmf⟩, hsym⟩, hdm1⟩, hwt1⟩ := hwf
  obtain ⟨hregs, hroot, hrs2, hcs2, hmem2, hrc, hrr, hcc, hmle⟩ :=
    resolve_frame st n cs rs cn _ st1 hres
  have hdm0 : dmValueOnly st = true := by
    unfold dmValueOnly at hdm1 ⊢
    rw [hregs] at hdm1
    exact hdm1
  have hwt0 : regsWellTyped st = true := by
    unfold regsWellTyped at hwt1 ⊢
    rw [hregs] at hwt1
    exact hwt1
  obtain ⟨hn, t, hft, hmem⟩ := resolve_obj_spec st n cs rs cn i st1 hdm0 hwt0 hres
  have hlt : i.mint < st1.nextMint := mintsFresh_lookup st1 hmf t i hmem
  have hA : ∀ t' ∈ scopeTokens st1,
      (({ st1 with container := Container.empty }).reregisterAll).container.isRegistered t'
        = true :=
    fun t' ht' =>
      reregisterAll_isRegistered { st1 with container := Container.empty } hcr t' ht'
  have hft1 : st1.findTok n cs rs cn = some t := by
    rw [findTok_congr st st1 hregs hroot hrs2 hcs2 hmem2]
    exact hft
  have hftp : findTokPure st1 n cs rs cn = some t := by
    rw [← findTok_eq_pure st1 hreg]
    exact hft1
  have htmem : t ∈ scopeTokens st1 := by
    refine findTokPure_mem st1 n cs rs cn t hftp
  have hregR : tokensRegistered
      (({ st1 with container := Container.empty }).reregisterAll) = true := by
    simp only [tokensRegistered, Bool.and_eq_true, List.all_eq_true]
    refine ⟨⟨?_, ?_⟩, ?_⟩
    · intro e he
      refine hA e.2 ?_
      unfold scopeTokens
      exact List.mem_append.mpr (Or.inl (List.mem_append.mpr
        (Or.inl (List.mem_map.mpr ⟨e, he, rfl⟩))))
    · intro e he f hf
      refine hA f.2 ?_
      unfold scopeTokens
      refine List.mem_append.mpr (Or.inl (List.mem_append.mpr (Or.inr ?_)))
      exact List.mem_flatMap.mpr ⟨e, he, List.mem_map.mpr ⟨f, hf, rfl⟩⟩
    · intro e he f hf
      refine hA f.2 ?_
      unfold scopeTokens
      refine List.mem_append.mpr (Or.inr ?_)
      exact List.mem_flatMap.mpr ⟨e, he, List.mem_map.mpr ⟨f, hf, rfl⟩⟩
  have hfR : (({ st1 with container := Container.empty }).reregisterAll).findTok n cs rs cn
      = some t := by
    rw [findTok_eq_pure _ hregR]
    exact (findTokPure_congr st1 (({ st1 with container := Container.empty }).reregisterAll)
      rfl rfl rfl rfl n cs rs cn).trans hftp
  have hisreg := hA t htmem
  unfold Container.isRegistered at hisreg
  obtain ⟨p, hp⟩ := Option.isSome_iff_exists.mp hisreg
  obtain ⟨cl, rfl⟩ := reregisterAll_useClass_only { st1 with container := Container.empty }
    (fun t0 p0 hl => by simp [Container.empty, List.lookup] at hl) t p hp
  have hins : (({ st1 with container := Container.empty }).reregisterAll).container.instances
      = [] := reregisterAll_instances { st1 with container := Container.empty }
  have hmat : (({ st1 with container := Container.empty }).reregisterAll).materialize t
      = .ok (some (Value.obj ⟨cl, st1.nextMint⟩),
        { ({ st1 with container := Container.empty }).reregisterAll with
          container := {
            regs := (({ st1 with container := Container.empty }).reregisterAll).container.regs,
            instances := [(t, ⟨cl, st1.nextMint⟩)] },
          nextMint := st1.nextMint + 1 }) := by
    unfold DMState.materialize Container.resolveTok
    rw [hp, hins]
    simp only [List.lookup]
    rfl
  have hresolve2 : (({ st1 with container := Container.empty }).reregisterAll).resolve n cs rs cn
      = .ok (some (Value.obj ⟨cl, st1.nextMint⟩),
        { ({ st1 with container := Container.empty }).reregisterAll with
          container := {
            regs := (({ st1 with container := Container.empty }).reregisterAll).container.regs,
            instances := [(t, ⟨cl, st1.nextMint⟩)] },
          nextMint := st1.nextMint + 1 }) := by
    unfold DMState.resolve
    rw [if_neg hn, hfR]
    exact hmat
  have hne : (Instance.mk cl st1.nextMint) ≠ i := by
    intro heq
    have := congrArg Instance.mint heq
    simp at this
    omega
  exact ⟨hA, hA, ⟨⟨cl, st1.nextMint⟩, _, hresolve2, hne⟩, ⟨⟨cl, st1.nextMint⟩, _, hresolve2, hne⟩⟩

/-- Witness for C3: the resolved root fixture, flushed and re-resolved. -/
theorem reset_reregisters_and_mints_fresh_witness :
    (∀ t ∈ scopeTokens fxRootResolved,
      (fxRootResolved.resetScope "root" none).container.isRegistered t = true) ∧
    (∀ t ∈ scopeTokens fxRootResolved,
      (fxRootResolved.resetClass "Svc").container.isRegistered t = true) ∧
    (∃ i2 st3, (fxRootResolved.resetScope "root" none).resolve "Svc" none none none
        = .ok (some (Value.obj i2), st3) ∧ i2 ≠ Instance.mk svcRootCls 0) ∧
    (∃ i2 st3, (fxRootResolved.resetClass "Svc").resolve "Svc" none none none
        = .ok (some (Value.obj i2), st3) ∧ i2 ≠ Instance.mk svcRootCls 0) :=
  reset_reregisters_and_mints_fresh fxRoot "Svc" none none none
    (Instance.mk svcRootCls 0) fxRootResolved (by rfl) (by rfl) "root" none "Svc"

/-- C9: after a full-flush reset the engine's `useValue` self-registration is
gone (it is made only in the private constructor and `reregisterAll` replays
only scope-table tokens, which are all symbols), so resolving the reserved
name throws an unregistered-token error; after the instance-only `resetAll`
the reserved name still resolves to the engine. -/
theorem reset_loses_engine_self_registration :
    (∀ (st : DMState) (sc : String) (sel : Option String) (cs rs cn : Option String),
      scopeTokensSym st = true →
      (st.resetScope sc sel).resolve "DependencyManagement" cs rs cn
        = .error "Attempted to resolve unregistered dependency token") ∧
    (∀ (st : DMState) (cname : String) (cs rs cn : Option String),
      scopeTokensSym st = true →
      (st.resetClass cname).resolve "DependencyManagement" cs rs cn
        = .error "Attempted to resolve unregistered dependency token") ∧
    (∀ (st : DMState) (cs rs cn : Option String),
      st.container.regs.lookup dmToken = some (Provider.useValue Value.engine) →
      (st.resetAll).resolve "DependencyManagement" cs rs cn
        = .ok (some Value.engine, st.resetAll)) := by
  refine ⟨?_, ?_, ?_⟩
  · intro st sc sel cs rs cn hsym
    have h0 : (st.resetScope sc sel).container.regs.lookup dmToken = none :=
      reregisterAll_strTok_none { st with container := Container.empty } hsym
        "DependencyManagement" rfl
    unfold DMState.resolve
    rw [if_pos rfl]
    unfold DMState.materialize Container.resolveTok
    rw [h0]
  · intro st cname cs rs cn hsym
    have h0 : (st.resetClass cname).container.regs.lookup dmToken = none :=
      reregisterAll_strTok_none { st with container := Container.empty } hsym
        "DependencyManagement" rfl
    unfold DMState.resolve
    rw [if_pos rfl]
    unfold DMState.materialize Container.resolveTok
    rw [h0]
  · intro st cs rs cn hreg
    have h0 : (st.resetAll).container.regs.lookup dmToken
        = some (Provider.useValue Value.engine) := hreg
    unfold DMState.resolve
    rw [if_pos rfl]
    unfold DMState.materialize Container.resolveTok
    rw [h0]

/-- Witness for C9: the three-scope fixture loses the engine after a flush
but keeps it across `resetAll`. -/
theorem reset_loses_engine_self_registration_witness :
    (fxFull.resetScope "root" none).resolve "DependencyManagement" none none none
      = .error "Attempted to resolve unregistered dependency token" ∧
    (fxFull.resetAll).resolve "DependencyManagement" none none none
      = .ok (some Value.engine, fxFull.resetAll) :=
  ⟨reset_loses_engine_self_registration.1 fxFull "root" none none none none (by rfl),
   reset_loses_engine_self_registration.2.2 fxFull none none none (by rfl)⟩

/-- C10: the fail-fast branches of the two scope setups are unreachable in
any synced state (scope tables and class maps created in lockstep): both
setups always return successfully. -/
theorem setup_fail_fast_unreachable :
    (∀ (st : DMState) (sel : String) (ps : List ClassRef),
      scopesSynced st = true →
      ∃ st', st.setupComponentContainer sel ps = .ok st') ∧
    (∀ (st : DMState) (cs : List CompRef) (ps : List ClassRef) (sel : String),
      scopesSynced st = true →
      ∃ st', st.setupRouterContainer cs ps sel = .ok st') := by
  have hcompCore : ∀ (st' : DMState) (sel : String) (ps : List ClassRef)
      (tbl : List (String × Token)) (cm : List (String × ClassRef)),
      st'.componentScopes.lookup sel = some tbl →
      st'.componentClasses.lookup sel = some cm →
      ∃ st2, st'.setupComponentCore sel ps = .ok st2 := by
    intro st' sel ps tbl cm htbl hcm
    unfold DMState.setupComponentCore
    rw [htbl, hcm]
    exact ⟨_, rfl⟩
  have hrouterCore : ∀ (st' : DMState) (cs : List CompRef) (ps : List ClassRef) (sel : String)
      (tbl : List (String × Token)) (cm : List (String × ClassRef)),
      st'.routerScopes.lookup sel = some tbl →
      st'.routerClasses.lookup sel = some cm →
      ∃ st2, st'.setupRouterCore cs ps sel = .ok st2 := by
    intro st' cs ps sel tbl cm htbl hcm
    unfold DMState.setupRouterCore
    rw [htbl, hcm]
    exact ⟨_, rfl⟩
  constructor
  · intro st sel ps hsync
    simp only [scopesSynced, Bool.and_eq_true, List.all_eq_true] at hsync
    obtain ⟨hcompSync, _⟩ := hsync
    unfold DMState.setupComponentContainer
    by_cases hs : (st.componentScopes.lookup sel).isSome
    · rw [if_pos hs]
      obtain ⟨tbl, htbl⟩ := Option.isSome_iff_exists.mp hs
      obtain ⟨cm, hcm⟩ := Option.isSome_iff_exists.mp
        (hcompSync (sel, tbl) (mem_of_lookup_eq_some htbl))
      exact hcompCore st sel ps tbl cm htbl hcm
    · rw [if_neg hs]
      exact hcompCore _ sel ps [] [] (lookup_aset_self _ _ _) (lookup_aset_self _ _ _)
  · intro st cs ps sel hsync
    simp only [scopesSynced, Bool.and_eq_true, List.all_eq_true] at hsync
    obtain ⟨_, hrouterSync⟩ := hsync
    unfold DMState.setupRouterContainer
    by_cases hs : (st.routerScopes.lookup sel).isSome
    · rw [if_pos hs]
      obtain ⟨tbl, htbl⟩ := Option.isSome_iff_exists.mp hs
      obtain ⟨cm, hcm⟩ := Option.isSome_iff_exists.mp
        (hrouterSync (sel, tbl) (mem_of_lookup_eq_some htbl))
      exact hrouterCore st cs ps sel tbl cm htbl hcm
    · rw [if_neg hs]
      exact hrouterCore _ cs ps sel [] [] (lookup_aset_self _ _ _) (lookup_aset_self _ _ _)

/-- Witness for C10: both setup operations succeed on the three-scope
fixture for a fresh selector. -/
theorem setup_fail_fast_unreachable_witness :
    (∃ st', fxFull.setupComponentContainer "fresh" [configCls] = .ok st') ∧
    (∃ st', fxFull.setupRouterContainer [] [configCls] "freshR" = .ok st') :=
  ⟨setup_fail_fast_unreachable.1 fxFull "fresh" [configCls] (by rfl),
   setup_fail_fast_unreachable.2 fxFull [] [configCls] "freshR" (by rfl)⟩

end Portento
